import Mathlib

/-!
Verification of the registration-serialization pipeline of
`flytekit/clis/sdk_in_container/serialize.py`.

The pipeline is shallowly embedded: Python objects become Lean structures,
the loops of `serialize_all` / `serialize_tasks_only` become recursive
functions, the `raise AssertionError` branch becomes `Except.error`, and the
files written to disk become a returned list of record pairs.  Collaborator
code that lives outside the file under study (the package scanner, `fqdn`,
`LaunchPlan.get_default_launch_plan`, `compute_digest`,
`filter_tar_file_fn`) is modelled from the specification, as noted on each
such definition.
-/

deriving instance DecidableEq for Except

namespace FlytekitSerialize

/-- The three registerable resource kinds, plus a catch-all for other
scanned objects (`entity.resource_type` in the source). -/
inductive ResourceType
  | task
  | workflow
  | launchPlan
  | unspecified
deriving DecidableEq

/-- `flytekit.common.core.identifier.Identifier(resource_type, project,
domain, name, version)`. -/
structure Identifier where
  resourceType : ResourceType
  project : String
  domain : String
  name : String
  version : String
deriving DecidableEq

/-- `_PROJECT_PLACEHOLDER` from the source. -/
def PROJECT_PLACEHOLDER : String := "\x7b\x7b registration.project \x7d\x7d"

/-- `_DOMAIN_PLACEHOLDER` from the source. -/
def DOMAIN_PLACEHOLDER : String := "\x7b\x7b registration.domain \x7d\x7d"

/-- `_VERSION_PLACEHOLDER` from the source. -/
def VERSION_PLACEHOLDER : String := "\x7b\x7b registration.version \x7d\x7d"

/-- An item of `loaded_entities` as seen by the write loop of
`serialize_all` (lines 155-175): it exposes `has_registered`, `id` /
`_id` (the same identifier object in the source), and a `serialize()`
capability whose output we keep as an opaque string of bytes. -/
structure RegisterableForm where
  id : Identifier
  hasRegistered : Bool
  serializedBytes : String
deriving DecidableEq

/-- A `(module, binding name, object)` triple produced by the package
scanner `iterate_registerable_entities_in_order` (external collaborator:
the spec describes it as a deterministic stream of discovered objects).
The object carries its resource type, its `has_registered` flag and its
`serialize()` bytes. -/
structure ScannedObject where
  moduleName : String
  bindingName : String
  resourceType : ResourceType
  hasRegistered : Bool
  serializedBytes : String
deriving DecidableEq

/-- An entry of the process-wide entity registry
`flyte_context.FlyteEntities.entities`.  A `pythonTask` carries the two
registerable forms `get_registerable_entity()` /
`get_fast_registerable_entity()` can return; a `workflow` and a
`launchPlan` carry their single registerable form; `otherObj` stands for
any object that is none of the three kinds (the `isinstance` test on line
137 of the source fails for it). -/
inductive Entity
  | pythonTask (defaultForm fastForm : RegisterableForm)
  | workflow (name : String) (form : RegisterableForm)
  | launchPlan (name : String) (form : RegisterableForm)
  | otherObj
deriving DecidableEq

/-- A `LaunchPlan` object as returned by
`LaunchPlan.get_default_launch_plan`: its name and the registerable form
its `get_registerable_entity()` yields. -/
structure LaunchPlanObj where
  name : String
  form : RegisterableForm
deriving DecidableEq

/-- `class SerializationMode(Enum)` from the source. -/
inductive SerializationMode
  | DEFAULT
  | FAST
deriving DecidableEq

/-- A runtime value passed for the `mode` argument.  Python is dynamically
typed, so besides the two enum members any other object may arrive at the
`mode` comparison on lines 139-144; `invalid tag` stands for such a
non-member value and drives the `raise AssertionError` branch. -/
inductive ModeVal
  | mode (m : SerializationMode)
  | invalid (tag : String)
deriving DecidableEq

/-- Decimal digit character, as produced by Python `str` on a digit. -/
def digitChar (d : Nat) : Char := Nat.digitChar d

/-- Fuel-driven most-significant-first decimal rendering. -/
def pyStrAux : Nat → Nat → List Char
  | 0, _ => []
  | fuel + 1, n =>
      if n < 10 then [digitChar n]
      else pyStrAux fuel (n / 10) ++ [digitChar (n % 10)]

/-- Python `str(i)` on a non-negative integer: its decimal rendering. -/
def pyStr (n : Nat) : String := String.mk (pyStrAux (n + 1) n)

/-- Python `s.zfill(w)`: pad `s` on the left with zeros up to width `w`
(no truncation when `s` is already at least `w` long). -/
def zfill (s : String) (w : Nat) : String :=
  if s.length < w then String.mk (List.replicate (w - s.length) '0') ++ s
  else s

/-- Executable ceiling of `log10`: scans widths `k = 0, 1, ...` until
`n ≤ 10 ^ k`; the fuel bound `n` always suffices. -/
def ceilLog10From (n : Nat) : Nat → Nat → Nat
  | 0, k => k
  | fuel + 1, k => if n ≤ 10 ^ k then k else ceilLog10From n fuel (k + 1)

/-- Exact-arithmetic value of `math.ceil(math.log(n, 10))`: the least `k`
with `n ≤ 10 ^ k` (for `n ≥ 1`, the mathematical ceiling of `log10 n`).
CPython evaluates the inner expression in IEEE-754 double precision, which
matches this exact value for every `n ≤ 10 ^ 15` (checked exhaustively for
small `n` and on wide windows around each power of ten, the only points
where a few ulps of rounding error can move the ceiling) but falls below
it past that bound: at `n = 10 ^ 15 + 1` (and at `10 ^ k + 1` for
`k ≥ 15`) the double computation rounds down to exactly `15.0` (resp.
`k`), returning `15` where the exact ceiling is `16`.  Width theorems are
therefore stated only on the agreement range `n ≤ 10 ^ 15`. -/
def ceilLog10 (n : Nat) : Nat := ceilLog10From n n 0

/-- `_determine_text_chars(length)` (lines 178-188 of the source):
`0` when `length == 0`, else `ceil(log(length, 10))`.  The float
computation is embedded through `ceilLog10`, faithful to the program only
for `length ≤ 10 ^ 15` — see the caveat on `ceilLog10`. -/
def _determine_text_chars (length : Nat) : Nat :=
  if length = 0 then 0 else ceilLog10 length

/-- The bound below which the double-precision evaluation of
`ceil(log(n, 10))` agrees with the exact ceiling embedded here. -/
def floatLogAgreementBound : Nat := 10 ^ 15

/-- One record pair written by a loop iteration: the `<index>_<name>.pb`
file with the entity's serialized bytes, and the
`<index>_<name>.identifier.pb` file with the identifier
(`entity._id.to_flyte_idl()` is kept as the identifier value itself). -/
structure RecordPair where
  recordFname : String
  recordBytes : String
  identifierFname : String
  identifierContent : Identifier
deriving DecidableEq

/-- Build the record pair written for batch position `i` under zero-pad
width `w` (lines 159-175: both filenames use the same index and the same
identifier name, since `entity.id` and `entity._id` are the same object). -/
def mkRecordPair (w : Nat) (i : Nat) (e : RegisterableForm) : RecordPair :=
  { recordFname := zfill (pyStr i) w ++ "_" ++ e.id.name ++ ".pb"
    recordBytes := e.serializedBytes
    identifierFname := zfill (pyStr i) w ++ "_" ++ e.id.name ++ ".identifier.pb"
    identifierContent := e.id }

/-- The write loop of `serialize_all` (lines 155-175) over the enumerated
batch: an entity whose `has_registered` flag is set is skipped with
`continue` (no record file and no identifier file), every other entity
produces its record pair. -/
def writeLoopGo (w : Nat) : List (Nat × RegisterableForm) → List RecordPair
  | [] => []
  | (i, e) :: rest =>
      if e.hasRegistered then writeLoopGo w rest
      else mkRecordPair w i e :: writeLoopGo w rest

/-- Lines 154-175 of `serialize_all`: compute the zero-pad width from the
full batch length, then run the write loop over `enumerate(loaded_entities)`. -/
def writeLoop (batch : List RegisterableForm) : List RecordPair :=
  writeLoopGo (_determine_text_chars batch.length) batch.enum

/-- Modelled from the spec: `fqdn(module, binding, entity_type)` of
`flytekit.common.utils` (not under src/) computes the canonical dotted
path `module.bindingName`; kind disambiguation is carried by the
identifier's resource-type field. -/
def fqdn (moduleName bindingName : String) (_rt : ResourceType) : String :=
  moduleName ++ "." ++ bindingName

/-- Identifier assignment for a scanned object (lines 116-121 and 52-57):
`o._id = Identifier(o.resource_type, PROJECT, DOMAIN, fqdn(...), VERSION)`,
turning the object into a write-loop item. -/
def assignId (o : ScannedObject) : RegisterableForm :=
  { id :=
      { resourceType := o.resourceType
        project := PROJECT_PLACEHOLDER
        domain := DOMAIN_PLACEHOLDER
        name := fqdn o.moduleName o.bindingName o.resourceType
        version := VERSION_PLACEHOLDER }
    hasRegistered := o.hasRegistered
    serializedBytes := o.serializedBytes }

/-- First launch-plan entry of the registry with the given name, if any. -/
def findLaunchPlan : List Entity → String → Option LaunchPlanObj
  | [], _ => none
  | Entity.launchPlan n f :: rest, w =>
      if n = w then some ⟨n, f⟩ else findLaunchPlan rest w
  | _ :: rest, w => findLaunchPlan rest w

/-- The registerable form of the default launch plan synthesized for the
workflow named `w`: an auto-generated, parameterless launch plan carrying
the workflow's name and the placeholder identifier. -/
def defaultLaunchPlanForm (w : String) : RegisterableForm :=
  { id :=
      { resourceType := ResourceType.launchPlan
        project := PROJECT_PLACEHOLDER
        domain := DOMAIN_PLACEHOLDER
        name := w
        version := VERSION_PLACEHOLDER }
    hasRegistered := false
    serializedBytes := "launch-plan-spec:" ++ w }

/-- Modelled from the spec: `LaunchPlan.get_default_launch_plan(ctx, wf)`
(the `flytekit.annotated.launch_plan` module is not under src/) returns
the launch plan already present in the live registry for the workflow when
there is one, and otherwise synthesizes the default launch plan and
appends it to the live registry as a construction side effect.  Returns
the launch plan together with the updated live registry. -/
def get_default_launch_plan (live : List Entity) (wfName : String) :
    LaunchPlanObj × List Entity :=
  match findLaunchPlan live wfName with
  | some lp => (lp, live)
  | none =>
      (⟨wfName, defaultLaunchPlanForm wfName⟩,
        live ++ [Entity.launchPlan wfName (defaultLaunchPlanForm wfName)])

/-- One iteration of the expansion loop of `serialize_all`
(lines 129-152) on state `(live registry, loaded_entities)`:
  * a task selects its direct form under `DEFAULT`, its fast form under
    `FAST`, and raises `AssertionError` for any other mode value;
  * a workflow appends its form and then, unconditionally, the
    registerable form of `get_default_launch_plan`;
  * a launch plan appends its form;
  * any other object fails the `isinstance` test and contributes nothing. -/
def expandStep (mode : ModeVal) (live : List Entity)
    (acc : List RegisterableForm) :
    Entity → Except String (List Entity × List RegisterableForm)
  | Entity.pythonTask defaultForm fastForm =>
      match mode with
      | ModeVal.mode SerializationMode.DEFAULT =>
          Except.ok (live, acc ++ [defaultForm])
      | ModeVal.mode SerializationMode.FAST =>
          Except.ok (live, acc ++ [fastForm])
      | ModeVal.invalid tag =>
          Except.error ("Unrecognized serialization mode: " ++ tag)
  | Entity.workflow n form =>
      let r := get_default_launch_plan live n
      Except.ok (r.2, acc ++ [form, r.1.form])
  | Entity.launchPlan _ form => Except.ok (live, acc ++ [form])
  | Entity.otherObj => Except.ok (live, acc)

/-- The expansion loop of `serialize_all` over the registry snapshot
(`FlyteEntities.entities.copy()`, line 129): the iterated list is the
snapshot taken at loop entry, while the live registry is threaded through
and may grow. -/
def expandGo (mode : ModeVal) :
    List Entity → List Entity → List RegisterableForm →
    Except String (List Entity × List RegisterableForm)
  | [], live, acc => Except.ok (live, acc)
  | e :: rest, live, acc =>
      match expandStep mode live acc e with
      | Except.error msg => Except.error msg
      | Except.ok (live2, acc2) => expandGo mode rest live2 acc2

/-- `serialize_all(pkgs, folder, mode)` (lines 76-175): assign placeholder
identifiers to every scanned object and collect them into
`loaded_entities`; default a falsy mode to `DEFAULT`; expand a snapshot of
the process-wide registry, appending registerable forms to
`loaded_entities`; then run the write loop.  An `AssertionError` during
expansion aborts before any record pair is written. -/
def serialize_all (scanned : List ScannedObject) (registry : List Entity)
    (mode : Option ModeVal) : Except String (List RecordPair) :=
  let loaded := scanned.map assignId
  let m := mode.getD (ModeVal.mode SerializationMode.DEFAULT)
  match expandGo m registry registry loaded with
  | Except.error msg => Except.error msg
  | Except.ok (_, batch) => Except.ok (writeLoop batch)

/-- The record pairs a run leaves on disk: none when the run aborted. -/
def writtenPairs : Except String (List RecordPair) → List RecordPair
  | Except.error _ => []
  | Except.ok l => l

/-- The set (as an ordered list) of filenames a run writes. -/
def outputFilenames (r : Except String (List RecordPair)) : List String :=
  (writtenPairs r).flatMap fun p => [p.recordFname, p.identifierFname]

/-- The write loop of `serialize_tasks_only` (lines 60-72): one record
pair per loaded entity, no skipping. -/
def writeLoopAll (w : Nat) : List (Nat × RegisterableForm) → List RecordPair
  | [] => []
  | (i, e) :: rest => mkRecordPair w i e :: writeLoopAll w rest

/-- `serialize_tasks_only(pkgs, folder)` (lines 40-72): the scanner is
invoked with `include_entities={SdkTask}` so only task objects are
loaded (modelled from the spec: the filtering lives in the external
`module_loader`); identifiers are assigned, and every loaded entity is
written as a record pair with no registered-flag check and no launch-plan
synthesis. -/
def serialize_tasks_only (scanned : List ScannedObject) : List RecordPair :=
  let loaded :=
    (scanned.filter (fun o => o.resourceType = ResourceType.task)).map assignId
  writeLoopAll (_determine_text_chars loaded.length) loaded.enum

/-- A file of the fast-mode source directory, given by its path relative
to the directory root and its content bytes. -/
structure SourceFile where
  relPath : String
  content : String
deriving DecidableEq

/-- Modelled from the spec: the filter predicate of
`flytekit.tools.fast_registration` (not under src/) excludes a fixed set
of non-deterministic or irrelevant paths — version-control metadata,
byte-compiled caches, build artifacts.  `true` means the file is kept. -/
def filter_tar_file_fn (f : SourceFile) : Bool :=
  !(f.relPath.startsWith ".git"
    || (f.relPath.splitOn "__pycache__").length != 1
    || f.relPath.endsWith ".pyc")

/-- Canonical traversal of a source directory: kept files in sorted
relative-path order, independent of filesystem iteration order. -/
def canonicalFiles (dir : List SourceFile) : List SourceFile :=
  (dir.filter filter_tar_file_fn).mergeSort
    (fun a b => decide (a.relPath ≤ b.relPath))

/-- Modelled from the spec: `compute_digest(source_dir)` of
`flytekit.tools.fast_registration` (not under src/) hashes file contents
and relative paths in canonical sorted order, excluding filtered paths;
the hash is kept as an injective-enough fold into a string, which suffices
for the naming properties proved here. -/
def compute_digest (dir : List SourceFile) : String :=
  (canonicalFiles dir).foldl
    (fun acc f => acc ++ "|" ++ f.relPath ++ ":" ++ f.content) "digest"

/-- The compression applied to the fast-registration archive. -/
inductive Compression
  | gzip
deriving DecidableEq

/-- A produced archive: its filename, compression, and entries (each
entry keeps the path it has inside the archive). -/
structure Archive where
  fname : String
  compression : Compression
  entries : List SourceFile
deriving DecidableEq

/-- The output of the `fast workflows` command: the record pairs of the
`serialize_all` run and the archives produced afterwards. -/
structure FastOutput where
  records : Except String (List RecordPair)
  archives : List Archive

/-- `fast_workflows(ctx, source_dir, folder)` (lines 245-260): run
`serialize_all` with mode `FAST`, then write exactly one archive named
`<digest>.tar.gz` with gzip compression (`"w:gz"`), adding the source
directory with `arcname=""` — the files keep their paths relative to the
source directory, rooted at the archive root — under the filter
`filter_tar_file_fn`. -/
def fast_workflows (scanned : List ScannedObject) (registry : List Entity)
    (sourceDir : List SourceFile) : FastOutput :=
  { records :=
      serialize_all scanned registry (some (ModeVal.mode SerializationMode.FAST))
    archives :=
      [{ fname := compute_digest sourceDir ++ ".tar.gz"
         compression := Compression.gzip
         entries := sourceDir.filter filter_tar_file_fn }] }

/-- A concrete registerable form, for exercising the pipeline on explicit
inputs. -/
def exForm (rt : ResourceType) (nm : String) (reg : Bool) : RegisterableForm :=
  { id :=
      { resourceType := rt
        project := PROJECT_PLACEHOLDER
        domain := DOMAIN_PLACEHOLDER
        name := nm
        version := VERSION_PLACEHOLDER }
    hasRegistered := reg
    serializedBytes := "bytes:" ++ nm }

/-- A concrete scanned object, for exercising the pipeline on explicit
inputs. -/
def exScanned (rt : ResourceType) (modName bindName : String) : ScannedObject :=
  { moduleName := modName
    bindingName := bindName
    resourceType := rt
    hasRegistered := false
    serializedBytes := "scanned:" ++ bindName }

/-- A concrete launch-plan registry entry named `mod.wf`. -/
def exLP : Entity :=
  Entity.launchPlan "mod.wf" (exForm ResourceType.launchPlan "mod.wf" false)

/-- A concrete workflow registry entry named `mod.wf`. -/
def exWF : Entity :=
  Entity.workflow "mod.wf" (exForm ResourceType.workflow "mod.wf" false)

/-- A batch of three entities whose middle entity is already registered:
used to exhibit an index gap in the written filenames. -/
def gapBatch : List RegisterableForm :=
  [exForm ResourceType.task "m.a" false,
   exForm ResourceType.task "m.b" true,
   exForm ResourceType.task "m.c" false]

/-- A batch of eleven entities of which only the first and the last are
unregistered: the pad width is computed from all eleven. -/
def wideBatch : List RegisterableForm :=
  exForm ResourceType.task "m.a" false ::
    (List.replicate 9 (exForm ResourceType.task "m.r" true) ++
      [exForm ResourceType.task "m.k" false])

/-- The rendering property of the spec: every index below `n`, rendered by
`str(i).zfill(w)`, occupies exactly `w` digits (no truncation). -/
def goodWidth (n w : Nat) : Prop :=
  ∀ i, i < n → (zfill (pyStr i) w).length = w

instance (n w : Nat) : Decidable (goodWidth n w) := by
  unfold goodWidth; exact Nat.decidableBallLT n _

/-! ### Arithmetic facts about the rendering and the width formula -/

theorem ceilLog10From_succ (n fuel k : Nat) :
    ceilLog10From n (fuel + 1) k =
      if n ≤ 10 ^ k then k else ceilLog10From n fuel (k + 1) := rfl

theorem ceilLog10From_eq_clog (n : Nat) :
    ∀ fuel k, k ≤ Nat.clog 10 n → Nat.clog 10 n ≤ k + fuel →
      ceilLog10From n fuel k = Nat.clog 10 n := by
  intro fuel
  induction fuel with
  | zero => intro k h1 h2; show k = Nat.clog 10 n; omega
  | succ fuel ih =>
      intro k h1 h2
      rw [ceilLog10From_succ]
      by_cases hk : n ≤ 10 ^ k
      · have : Nat.clog 10 n ≤ k := (Nat.le_pow_iff_clog_le (by norm_num)).mp hk
        rw [if_pos hk]; omega
      · have hlt : 10 ^ k < n := Nat.lt_of_not_le hk
        have : k < Nat.clog 10 n := (Nat.pow_lt_iff_lt_clog (by norm_num)).mp hlt
        rw [if_neg hk]
        exact ih (k + 1) (by omega) (by omega)

theorem ceilLog10_eq_clog (n : Nat) : ceilLog10 n = Nat.clog 10 n := by
  unfold ceilLog10
  apply ceilLog10From_eq_clog n n 0 (Nat.zero_le _)
  rcases Nat.eq_zero_or_pos n with h | h
  · subst h; simp [Nat.clog]
  · have h1 : n ≤ 10 ^ n := Nat.le_of_lt (Nat.lt_pow_self (by norm_num) n)
    have := (Nat.le_pow_iff_clog_le (show (1:Nat) < 10 by norm_num)).mp h1
    omega

theorem pyStrAux_succ (fuel n : Nat) :
    pyStrAux (fuel + 1) n =
      if n < 10 then [digitChar n]
      else pyStrAux fuel (n / 10) ++ [digitChar (n % 10)] := rfl

theorem pyStrAux_length :
    ∀ fuel n, n < 10 ^ (fuel + 1) →
      (pyStrAux (fuel + 1) n).length = Nat.log 10 n + 1 := by
  intro fuel
  induction fuel with
  | zero =>
      intro n hn
      have hn10 : n < 10 := by simpa using hn
      rw [pyStrAux_succ 0 n, if_pos hn10]
      simp [Nat.log_eq_zero_iff.mpr (Or.inl hn10)]
  | succ fuel ih =>
      intro n hn
      by_cases h10 : n < 10
      · rw [pyStrAux_succ (fuel + 1) n, if_pos h10]
        simp [Nat.log_eq_zero_iff.mpr (Or.inl h10)]
      · have hdiv : n / 10 < 10 ^ (fuel + 1) := by
          apply (Nat.div_lt_iff_lt_mul (show 0 < 10 by norm_num)).mpr
          calc n < 10 ^ (fuel + 1 + 1) := hn
            _ = 10 ^ (fuel + 1) * 10 := by ring
        have hlog1 : 1 ≤ Nat.log 10 n := by
          have hne : n ≠ 0 := by omega
          exact (Nat.pow_le_iff_le_log (by norm_num) hne).mp (by simpa using Nat.le_of_not_lt h10)
        have hdivlog : Nat.log 10 (n / 10) = Nat.log 10 n - 1 := Nat.log_div_base 10 n
        rw [pyStrAux_succ (fuel + 1) n, if_neg h10]
        rw [List.length_append, ih (n / 10) hdiv]
        simp only [List.length_cons, List.length_nil]
        omega

theorem pyStr_length (n : Nat) : (pyStr n).length = Nat.log 10 n + 1 := by
  have hn : n < 10 ^ (n + 1) := by
    calc n < 10 ^ n := Nat.lt_pow_self (by norm_num) n
      _ ≤ 10 ^ (n + 1) := Nat.pow_le_pow_right (by norm_num) (Nat.le_succ n)
  exact pyStrAux_length n n hn

theorem zfill_length (s : String) (w : Nat) :
    (zfill s w).length = max w s.length := by
  unfold zfill
  by_cases h : s.length < w
  · rw [if_pos h, String.length_append]
    have hrep : (String.mk (List.replicate (w - s.length) '0')).length
        = w - s.length := by
      show (List.replicate (w - s.length) '0').length = w - s.length
      simp
    omega
  · rw [if_neg h]; omega

theorem goodWidth_iff (n w : Nat) :
    goodWidth n w ↔ ∀ i, i < n → Nat.log 10 i + 1 ≤ w := by
  unfold goodWidth
  constructor
  · intro h i hi
    have := h i hi
    rw [zfill_length, pyStr_length] at this
    omega
  · intro h i hi
    rw [zfill_length, pyStr_length]
    have := h i hi
    omega

theorem goodWidth_zero (w : Nat) : goodWidth 0 w := by
  intro i hi; omega

theorem clog_eq_log_pred_succ (n : Nat) (hn : 2 ≤ n) :
    Nat.clog 10 n = Nat.log 10 (n - 1) + 1 := by
  have h1 : Nat.clog 10 n ≤ Nat.log 10 (n - 1) + 1 := by
    apply (Nat.le_pow_iff_clog_le (by norm_num)).mp
    have := Nat.lt_pow_succ_log_self (show (1:Nat) < 10 by norm_num) (n - 1)
    omega
  have h2 : Nat.log 10 (n - 1) + 1 ≤ Nat.clog 10 n := by
    by_contra hcon
    have hle : Nat.clog 10 n ≤ Nat.log 10 (n - 1) := by omega
    have hpow : (10:Nat) ^ Nat.clog 10 n ≤ 10 ^ Nat.log 10 (n - 1) :=
      Nat.pow_le_pow_right (by norm_num) hle
    have hup : n ≤ 10 ^ Nat.clog 10 n := Nat.le_pow_clog (by norm_num) n
    have hdown : 10 ^ Nat.log 10 (n - 1) ≤ n - 1 :=
      Nat.pow_log_le_self 10 (by omega)
    omega
  omega

theorem determine_text_chars_eq_log_pred (n : Nat) (hn : 2 ≤ n) :
    _determine_text_chars n = Nat.log 10 (n - 1) + 1 := by
  unfold _determine_text_chars
  rw [if_neg (by omega), ceilLog10_eq_clog, clog_eq_log_pred_succ n hn]

/-! ### Claim C2 — zero-pad width -/

/-- C2, amended: on the range where the source's double-precision
computation agrees with the exact ceiling (`n ≤ 10 ^ 15`, see
`ceilLog10`), `_determine_text_chars` returns `0` for `n = 0` and the
ceiling of `log10 n` otherwise, and for every such `n` except `n = 1` the
returned width lets every index in `[0, n-1]` render in exactly that many
digits, minimally so; the concrete values at 10, 11, 100 and 101 are as
claimed.  At `n = 1` the returned width is `0` although index `0` needs
one digit — see the counterexample; past `10 ^ 15` the program's float
rounding can return less than the exact ceiling (`15` at `10 ^ 15 + 1`,
where the rendering property likewise fails), so no width claim is made
there. -/
theorem C2_zero_pad_width (n : Nat) (h : n ≠ 1)
    (hb : n ≤ floatLogAgreementBound) :
    _determine_text_chars n = (if n = 0 then 0 else Nat.clog 10 n) ∧
    goodWidth n (_determine_text_chars n) ∧
    (∀ w, w < _determine_text_chars n → ¬ goodWidth n w) ∧
    _determine_text_chars 10 = 1 ∧ _determine_text_chars 11 = 2 ∧
    _determine_text_chars 100 = 2 ∧ _determine_text_chars 101 = 3 := by
  refine ⟨?_, ?_, ?_, by decide, by decide, by decide, by decide⟩
  · unfold _determine_text_chars
    by_cases h0 : n = 0
    · simp [h0]
    · simp [h0, ceilLog10_eq_clog]
  · rcases Nat.eq_zero_or_pos n with h0 | h0
    · subst h0; exact goodWidth_zero _
    · have h2 : 2 ≤ n := by omega
      rw [goodWidth_iff, determine_text_chars_eq_log_pred n h2]
      intro i hi
      have := Nat.log_mono_right (b := 10) (show i ≤ n - 1 by omega)
      omega
  · rcases Nat.eq_zero_or_pos n with h0 | h0
    · subst h0
      intro w hw
      unfold _determine_text_chars at hw
      simp at hw
    · have h2 : 2 ≤ n := by omega
      intro w hw hgood
      rw [determine_text_chars_eq_log_pred n h2] at hw
      rw [goodWidth_iff] at hgood
      have := hgood (n - 1) (by omega)
      omega

/-- Witness for C2: at `n = 11` the width is `2` and every index below 11
renders in exactly two digits. -/
theorem C2_zero_pad_width_witness :
    goodWidth 11 (_determine_text_chars 11) ∧ _determine_text_chars 11 = 2 :=
  ⟨(C2_zero_pad_width 11 (by decide) (by norm_num [floatLogAgreementBound])).2.1,
    (C2_zero_pad_width 11 (by decide)
      (by norm_num [floatLogAgreementBound])).2.2.2.2.1⟩

/-- Counterexample to C2 as stated: at `n = 1` the code returns width
`ceil(log10 1) = 0` — here the float computation is exact, since
`math.log(1, 10)` is exactly `0.0` — but the single index `0` renders in
one digit, not zero, so the claimed rendering property fails. -/
theorem C2_counterexample :
    _determine_text_chars 1 = 0 ∧ ¬ goodWidth 1 (_determine_text_chars 1) := by
  decide

/-! ### Structure of the expansion loop -/

theorem expandStep_acc (mode : ModeVal) (live : List Entity)
    (acc : List RegisterableForm) (e : Entity) :
    expandStep mode live acc e =
      Except.map (fun p => (p.1, acc ++ p.2)) (expandStep mode live [] e) := by
  cases e with
  | pythonTask d f =>
      cases mode with
      | mode m => cases m <;> simp [expandStep, Except.map]
      | invalid tag => simp [expandStep, Except.map]
  | workflow n f => simp [expandStep, Except.map]
  | launchPlan n f => simp [expandStep, Except.map]
  | otherObj => simp [expandStep, Except.map]

theorem expandGo_acc (mode : ModeVal) (snap : List Entity) :
    ∀ (live : List Entity) (acc : List RegisterableForm),
      expandGo mode snap live acc =
        Except.map (fun p => (p.1, acc ++ p.2)) (expandGo mode snap live []) := by
  induction snap with
  | nil => intro live acc; simp [expandGo, Except.map]
  | cons e rest ih =>
      intro live acc
      show (match expandStep mode live acc e with
            | Except.error msg => Except.error msg
            | Except.ok (live2, acc2) => expandGo mode rest live2 acc2) = _
      rw [expandStep_acc mode live acc e]
      cases hstep : expandStep mode live [] e with
      | error msg => simp [expandGo, hstep, Except.map]
      | ok p =>
          obtain ⟨l2, c⟩ := p
          show expandGo mode rest l2 (acc ++ c) = _
          rw [ih l2 (acc ++ c)]
          have hr : expandGo mode (e :: rest) live [] = expandGo mode rest l2 c := by
            show (match expandStep mode live [] e with
                  | Except.error msg => Except.error msg
                  | Except.ok (live2, acc2) => expandGo mode rest live2 acc2) = _
            rw [hstep]
          rw [hr, ih l2 c]
          cases expandGo mode rest l2 [] with
          | error msg => simp [Except.map]
          | ok q => simp [Except.map]

theorem expandGo_prefix (mode : ModeVal) (snap live : List Entity)
    (acc : List RegisterableForm) (live2 : List Entity)
    (out : List RegisterableForm)
    (h : expandGo mode snap live acc = Except.ok (live2, out)) :
    ∃ t, out = acc ++ t ∧ expandGo mode snap live [] = Except.ok (live2, t) := by
  rw [expandGo_acc] at h
  cases hbase : expandGo mode snap live [] with
  | error msg => rw [hbase] at h; simp [Except.map] at h
  | ok p =>
      obtain ⟨l2, t⟩ := p
      rw [hbase] at h
      simp [Except.map] at h
      obtain ⟨h1, h2⟩ := h
      subst h1
      exact ⟨t, h2.symm, rfl⟩

theorem findLaunchPlan_append_none (l1 l2 : List Entity) (n : String)
    (h : findLaunchPlan (l1 ++ l2) n = none) : findLaunchPlan l1 n = none := by
  induction l1 with
  | nil => rfl
  | cons e rest ih =>
      cases e with
      | launchPlan m f =>
          by_cases hm : m = n
          · exfalso
            rw [List.cons_append] at h
            unfold findLaunchPlan at h
            rw [if_pos hm] at h
            exact Option.some_ne_none _ h
          · rw [List.cons_append] at h
            unfold findLaunchPlan at h
            rw [if_neg hm] at h
            unfold findLaunchPlan
            rw [if_neg hm]
            exact ih h
      | pythonTask d f => exact ih h
      | workflow m f => exact ih h
      | otherObj => exact ih h

theorem findLaunchPlan_none_not_mem (l : List Entity) (n : String)
    (h : findLaunchPlan l n = none) (f : RegisterableForm) :
    Entity.launchPlan n f ∉ l := by
  induction l with
  | nil => simp
  | cons e rest ih =>
      intro hmem
      rcases List.mem_cons.mp hmem with heq | hmem2
      · subst heq
        unfold findLaunchPlan at h
        rw [if_pos rfl] at h
        exact Option.some_ne_none _ h
      · cases e with
        | launchPlan m g =>
            by_cases hm : m = n
            · unfold findLaunchPlan at h
              rw [if_pos hm] at h
              exact Option.some_ne_none _ h
            · unfold findLaunchPlan at h
              rw [if_neg hm] at h
              exact ih h hmem2
        | pythonTask d g => exact ih h hmem2
        | workflow m g => exact ih h hmem2
        | otherObj => exact ih h hmem2

theorem expandGo_live_growth (mode : ModeVal) (snap : List Entity) :
    ∀ (live : List Entity) (acc : List RegisterableForm)
      (live2 : List Entity) (out : List RegisterableForm),
      expandGo mode snap live acc = Except.ok (live2, out) →
      ∃ created, live2 = live ++ created ∧
        ∀ e ∈ created, ∃ n, e = Entity.launchPlan n (defaultLaunchPlanForm n) ∧
          findLaunchPlan live n = none := by
  induction snap with
  | nil =>
      intro live acc live2 out h
      refine ⟨[], ?_, by simp⟩
      simp [expandGo] at h
      simp [h.1]
  | cons e rest ih =>
      intro live acc live2 out h
      cases e with
      | pythonTask d f =>
          cases mode with
          | mode m =>
              cases m with
              | DEFAULT => exact ih live (acc ++ [d]) live2 out h
              | FAST => exact ih live (acc ++ [f]) live2 out h
          | invalid tag => simp [expandGo, expandStep] at h
      | workflow n f =>
          cases hfind : findLaunchPlan live n with
          | some lp =>
              have hstep : expandGo mode (Entity.workflow n f :: rest) live acc =
                  expandGo mode rest live (acc ++ [f, lp.form]) := by
                show (match expandStep mode live acc (Entity.workflow n f) with
                      | Except.error msg => Except.error msg
                      | Except.ok (live2, acc2) => expandGo mode rest live2 acc2) = _
                simp [expandStep, get_default_launch_plan, hfind]
              rw [hstep] at h
              exact ih live (acc ++ [f, lp.form]) live2 out h
          | none =>
              have hstep : expandGo mode (Entity.workflow n f :: rest) live acc =
                  expandGo mode rest
                    (live ++ [Entity.launchPlan n (defaultLaunchPlanForm n)])
                    (acc ++ [f, defaultLaunchPlanForm n]) := by
                show (match expandStep mode live acc (Entity.workflow n f) with
                      | Except.error msg => Except.error msg
                      | Except.ok (live2, acc2) => expandGo mode rest live2 acc2) = _
                simp [expandStep, get_default_launch_plan, hfind]
              rw [hstep] at h
              obtain ⟨created, hlive, hprop⟩ :=
                ih (live ++ [Entity.launchPlan n (defaultLaunchPlanForm n)])
                  (acc ++ [f, defaultLaunchPlanForm n]) live2 out h
              refine ⟨Entity.launchPlan n (defaultLaunchPlanForm n) :: created,
                by simpa [List.append_assoc] using hlive, ?_⟩
              intro x hx
              rcases List.mem_cons.mp hx with heq | hmem
              · exact ⟨n, heq, hfind⟩
              · obtain ⟨m, hm, hfind2⟩ := hprop x hmem
                exact ⟨m, hm, findLaunchPlan_append_none live _ m hfind2⟩
      | launchPlan m f => exact ih live (acc ++ [f]) live2 out h
      | otherObj => exact ih live acc live2 out h

theorem expandGo_invalid_error (tag : String) (snap : List Entity)
    (d f : RegisterableForm) (hT : Entity.pythonTask d f ∈ snap) :
    ∀ (live : List Entity) (acc : List RegisterableForm),
      ∃ msg, expandGo (ModeVal.invalid tag) snap live acc = Except.error msg := by
  induction snap with
  | nil => cases hT
  | cons e rest ih =>
      intro live acc
      cases e with
      | pythonTask d2 f2 =>
          exact ⟨"Unrecognized serialization mode: " ++ tag,
            by simp [expandGo, expandStep]⟩
      | workflow n g =>
          have hmem : Entity.pythonTask d f ∈ rest := by
            rcases List.mem_cons.mp hT with heq | hmem
            · cases heq
            · exact hmem
          obtain ⟨msg, hmsg⟩ := ih hmem
            ((get_default_launch_plan live n).2)
            (acc ++ [g, (get_default_launch_plan live n).1.form])
          exact ⟨msg, by simpa [expandGo, expandStep] using hmsg⟩
      | launchPlan n g =>
          have hmem : Entity.pythonTask d f ∈ rest := by
            rcases List.mem_cons.mp hT with heq | hmem
            · cases heq
            · exact hmem
          obtain ⟨msg, hmsg⟩ := ih hmem live (acc ++ [g])
          exact ⟨msg, by simpa [expandGo, expandStep] using hmsg⟩
      | otherObj =>
          have hmem : Entity.pythonTask d f ∈ rest := by
            rcases List.mem_cons.mp hT with heq | hmem
            · cases heq
            · exact hmem
          obtain ⟨msg, hmsg⟩ := ih hmem live acc
          exact ⟨msg, by simpa [expandGo, expandStep] using hmsg⟩

theorem writeLoopGo_filter (w : Nat) (l : List (Nat × RegisterableForm)) :
    writeLoopGo w l = (l.filter (fun p => !p.2.hasRegistered)).map
      (fun p => mkRecordPair w p.1 p.2) := by
  induction l with
  | nil => rfl
  | cons p rest ih =>
      obtain ⟨i, e⟩ := p
      by_cases hr : e.hasRegistered
      · simp [writeLoopGo, hr, List.filter_cons, ih]
      · simp [writeLoopGo, hr, List.filter_cons, ih]

theorem writeLoopAll_map (w : Nat) (l : List (Nat × RegisterableForm)) :
    writeLoopAll w l = l.map (fun p => mkRecordPair w p.1 p.2) := by
  induction l with
  | nil => rfl
  | cons p rest ih =>
      obtain ⟨i, e⟩ := p
      simp [writeLoopAll, ih]

/-! ### Claim C1 — launch-plan entry after each workflow -/

/-- C1, amended: when the expansion loop of `serialize_all` visits a
workflow, it obtains the workflow's default launch plan — synthesizing it
and appending it to the live registry exactly when no launch plan of that
name is present, returning the already-present one otherwise — and then
appends the launch plan's registerable form to the batch immediately
after the workflow's form unconditionally: a launch-plan entry is
appended even when a launch plan for that workflow was already present in
the registry before expansion. -/
theorem C1_default_launch_plan_append (mode : ModeVal) (n : String)
    (f : RegisterableForm) (rest live : List Entity)
    (acc : List RegisterableForm) (live2 : List Entity)
    (out : List RegisterableForm)
    (h : expandGo mode (Entity.workflow n f :: rest) live acc =
        Except.ok (live2, out)) :
    (findLaunchPlan live n = none →
      get_default_launch_plan live n =
        (⟨n, defaultLaunchPlanForm n⟩,
          live ++ [Entity.launchPlan n (defaultLaunchPlanForm n)])) ∧
    (∀ lp0, findLaunchPlan live n = some lp0 →
      get_default_launch_plan live n = (lp0, live)) ∧
    out[acc.length]? = some f ∧
    out[acc.length + 1]? = some (get_default_launch_plan live n).1.form := by
  have hstep : expandGo mode (Entity.workflow n f :: rest) live acc =
      expandGo mode rest (get_default_launch_plan live n).2
        (acc ++ [f, (get_default_launch_plan live n).1.form]) := rfl
  rw [hstep] at h
  obtain ⟨t, hout, hbase⟩ := expandGo_prefix _ _ _ _ _ _ h
  subst hout
  refine ⟨?_, ?_, ?_, ?_⟩
  · intro hnone; unfold get_default_launch_plan; rw [hnone]
  · intro lp0 hsome; unfold get_default_launch_plan; rw [hsome]
  · rw [List.append_assoc, List.getElem?_append_right (Nat.le_refl _)]
    simp
  · rw [List.append_assoc,
      List.getElem?_append_right (by omega : acc.length ≤ acc.length + 1)]
    have hidx : acc.length + 1 - acc.length = 1 := by omega
    rw [hidx]
    simp

/-- Witness for C1: expanding a single-workflow registry against an empty
live registry synthesizes the default launch plan, appends it to the live
registry, and places its form right after the workflow's form. -/
theorem C1_default_launch_plan_append_witness :
    get_default_launch_plan [] "mod.wf" =
      (⟨"mod.wf", defaultLaunchPlanForm "mod.wf"⟩,
        [Entity.launchPlan "mod.wf" (defaultLaunchPlanForm "mod.wf")]) ∧
    ([exForm ResourceType.workflow "mod.wf" false,
      defaultLaunchPlanForm "mod.wf"] : List RegisterableForm)[(0 : Nat)]?
        = some (exForm ResourceType.workflow "mod.wf" false) ∧
    ([exForm ResourceType.workflow "mod.wf" false,
      defaultLaunchPlanForm "mod.wf"] : List RegisterableForm)[(1 : Nat)]?
        = some (get_default_launch_plan [] "mod.wf").1.form := by
  have h := C1_default_launch_plan_append (ModeVal.mode SerializationMode.DEFAULT)
    "mod.wf" (exForm ResourceType.workflow "mod.wf" false) [] [] []
    [Entity.launchPlan "mod.wf" (defaultLaunchPlanForm "mod.wf")]
    [exForm ResourceType.workflow "mod.wf" false, defaultLaunchPlanForm "mod.wf"]
    (by decide)
  exact ⟨h.1 (by decide), h.2.2.1, h.2.2.2⟩

/-- Counterexample to C1 as stated: the registry already holds a launch
plan for workflow `mod.wf`, yet expansion still appends a launch-plan
entry for it right after the workflow's form — the output batch carries
two launch-plan entries though the registry held one launch plan. -/
theorem C1_counterexample :
    expandGo (ModeVal.mode SerializationMode.DEFAULT) [exLP, exWF]
        [exLP, exWF] []
      = Except.ok ([exLP, exWF],
          [exForm ResourceType.launchPlan "mod.wf" false,
           exForm ResourceType.workflow "mod.wf" false,
           exForm ResourceType.launchPlan "mod.wf" false]) ∧
    (([exForm ResourceType.launchPlan "mod.wf" false,
       exForm ResourceType.workflow "mod.wf" false,
       exForm ResourceType.launchPlan "mod.wf" false] :
         List RegisterableForm).countP
        (fun e => e.id.resourceType == ResourceType.launchPlan)) = 2 ∧
    (([exLP, exWF] : List Entity).countP
        (fun e => match e with
          | Entity.launchPlan _ _ => true
          | _ => false)) = 1 := by
  decide

/-! ### Claim C3 — task serialization mode dispatch -/

/-- C3: a task in the registry snapshot selects its direct registerable
form under mode `DEFAULT` and its fast registerable form under `FAST`;
for any mode value that is neither, the expansion raises
(`AssertionError`), and since expansion wholly precedes the write loop
the run aborts with no record pair written. -/
theorem C3_mode_dispatch_and_abort (d f : RegisterableForm)
    (live : List Entity) (acc : List RegisterableForm) (tag : String)
    (scanned : List ScannedObject) (registry : List Entity)
    (hT : Entity.pythonTask d f ∈ registry) :
    expandStep (ModeVal.mode SerializationMode.DEFAULT) live acc
        (Entity.pythonTask d f) = Except.ok (live, acc ++ [d]) ∧
    expandStep (ModeVal.mode SerializationMode.FAST) live acc
        (Entity.pythonTask d f) = Except.ok (live, acc ++ [f]) ∧
    (∃ msg, serialize_all scanned registry (some (ModeVal.invalid tag)) =
        Except.error msg) ∧
    writtenPairs (serialize_all scanned registry (some (ModeVal.invalid tag)))
      = [] := by
  obtain ⟨msg, hmsg⟩ := expandGo_invalid_error tag registry d f hT registry
    (scanned.map assignId)
  have hrun : serialize_all scanned registry (some (ModeVal.invalid tag)) =
      Except.error msg := by
    unfold serialize_all
    simp only [Option.getD_some]
    rw [hmsg]
  exact ⟨rfl, rfl, ⟨msg, hrun⟩, by rw [hrun]; rfl⟩

/-- Witness for C3: a registry holding one task, serialized under an
unrecognized mode value, writes nothing. -/
theorem C3_mode_dispatch_and_abort_witness :
    writtenPairs (serialize_all []
      [Entity.pythonTask (exForm ResourceType.task "m.t" false)
        (exForm ResourceType.task "m.t.fast" false)]
      (some (ModeVal.invalid "BAD"))) = [] :=
  (C3_mode_dispatch_and_abort (exForm ResourceType.task "m.t" false)
    (exForm ResourceType.task "m.t.fast" false) [] [] "BAD" []
    [Entity.pythonTask (exForm ResourceType.task "m.t" false)
      (exForm ResourceType.task "m.t.fast" false)]
    (by decide)).2.2.2

/-! ### Claim C4 — the write loop sees scan output then expansion output -/

/-- C4: the batch the write loop of `serialize_all` iterates over is the
package-scan output (each object carrying its freshly assigned
placeholder identifier) followed by the registerable forms expanded from
the registry snapshot: scanned objects are themselves written as record
pairs, not used only for identifier assignment. -/
theorem C4_batch_concatenation (scanned : List ScannedObject)
    (registry : List Entity) (mode : Option ModeVal) (live2 : List Entity)
    (expanded : List RegisterableForm)
    (h : expandGo (mode.getD (ModeVal.mode SerializationMode.DEFAULT))
        registry registry [] = Except.ok (live2, expanded)) :
    serialize_all scanned registry mode =
      Except.ok (writeLoop (scanned.map assignId ++ expanded)) := by
  show (match expandGo (mode.getD (ModeVal.mode SerializationMode.DEFAULT))
        registry registry (scanned.map assignId) with
      | Except.error msg => Except.error msg
      | Except.ok (_, batch) => Except.ok (writeLoop batch)) =
    Except.ok (writeLoop (scanned.map assignId ++ expanded))
  rw [expandGo_acc, h]
  rfl

/-- Witness for C4: one scanned task and a one-workflow registry produce
the batch made of the scanned form followed by the two expanded forms. -/
theorem C4_batch_concatenation_witness :
    serialize_all [exScanned ResourceType.task "pkg" "T"] [exWF] none =
      Except.ok (writeLoop
        ([exScanned ResourceType.task "pkg" "T"].map assignId ++
          [exForm ResourceType.workflow "mod.wf" false,
           defaultLaunchPlanForm "mod.wf"])) :=
  C4_batch_concatenation [exScanned ResourceType.task "pkg" "T"] [exWF] none
    [exWF, Entity.launchPlan "mod.wf" (defaultLaunchPlanForm "mod.wf")]
    [exForm ResourceType.workflow "mod.wf" false,
      defaultLaunchPlanForm "mod.wf"]
    (by decide)

/-! ### Claim C5 — registered entities are skipped entirely -/

/-- C5: the write loop writes the record pairs of exactly the entities
whose `has_registered` flag is false — a registered entity contributes
neither a record file nor an identifier file, and every written pair
stems from an unregistered entity, so an already-registered entity never
appears in the written batch. -/
theorem C5_registered_never_written (batch : List RegisterableForm) :
    writeLoop batch =
      (batch.enum.filter (fun p => !p.2.hasRegistered)).map
        (fun p => mkRecordPair (_determine_text_chars batch.length) p.1 p.2) ∧
    ∀ pr ∈ writeLoop batch, ∃ i e, (i, e) ∈ batch.enum ∧
        e.hasRegistered = false ∧
        pr = mkRecordPair (_determine_text_chars batch.length) i e := by
  refine ⟨writeLoopGo_filter _ _, ?_⟩
  intro pr hpr
  have hpr2 : pr ∈ (batch.enum.filter (fun p => !p.2.hasRegistered)).map
      (fun p => mkRecordPair (_determine_text_chars batch.length) p.1 p.2) := by
    rw [← writeLoopGo_filter]
    exact hpr
  obtain ⟨⟨i, e⟩, hmem, rfl⟩ := List.mem_map.mp hpr2
  have hf := List.mem_filter.mp hmem
  refine ⟨i, e, hf.1, ?_, rfl⟩
  have := hf.2
  simp at this
  exact this

/-! ### Claim C6 — snapshot iteration never revisits created entities -/

/-- C6: the expansion loop iterates the snapshot taken at loop entry (the
`snap` argument, fixed) while the live registry is threaded separately;
every entity the expansion appends to the live registry is a synthesized
default launch plan that is not an element of the snapshot, hence is
never itself visited and expanded by the same run's loop. -/
theorem C6_snapshot_not_revisited (mode : ModeVal) (snap live2 : List Entity)
    (out : List RegisterableForm)
    (h : expandGo mode snap snap [] = Except.ok (live2, out)) :
    ∃ created, live2 = snap ++ created ∧
      ∀ e ∈ created,
        (∃ n, e = Entity.launchPlan n (defaultLaunchPlanForm n)) ∧
        e ∉ snap := by
  obtain ⟨created, hlive, hprop⟩ :=
    expandGo_live_growth mode snap snap [] live2 out h
  refine ⟨created, hlive, ?_⟩
  intro e he
  obtain ⟨n, rfl, hnone⟩ := hprop e he
  exact ⟨⟨n, rfl⟩, findLaunchPlan_none_not_mem snap n hnone _⟩

/-- Witness for C6: expanding a one-workflow registry appends exactly the
synthesized default launch plan to the live registry, and that launch
plan is not in the snapshot. -/
theorem C6_snapshot_not_revisited_witness :
    ∃ created,
      ([exWF, Entity.launchPlan "mod.wf" (defaultLaunchPlanForm "mod.wf")] :
          List Entity) = [exWF] ++ created ∧
      ∀ e ∈ created,
        (∃ n, e = Entity.launchPlan n (defaultLaunchPlanForm n)) ∧
        e ∉ ([exWF] : List Entity) :=
  C6_snapshot_not_revisited (ModeVal.mode SerializationMode.DEFAULT) [exWF]
    [exWF, Entity.launchPlan "mod.wf" (defaultLaunchPlanForm "mod.wf")]
    [exForm ResourceType.workflow "mod.wf" false,
      defaultLaunchPlanForm "mod.wf"]
    (by decide)

/-! ### Claim C7 — deterministic re-runs -/

/-- C7: two invocations of the full pipeline on the same package-scan
output, the same registry state and the same mode produce identical
lists of output filenames (same zero-padded indices paired with the same
entity names); the pipeline is a pure function of these inputs, with no
dependence on time, randomness or environment. -/
theorem C7_rerun_same_filenames (scanned1 scanned2 : List ScannedObject)
    (registry1 registry2 : List Entity) (mode1 mode2 : Option ModeVal)
    (h1 : scanned1 = scanned2) (h2 : registry1 = registry2)
    (h3 : mode1 = mode2) :
    outputFilenames (serialize_all scanned1 registry1 mode1) =
      outputFilenames (serialize_all scanned2 registry2 mode2) := by
  subst h1; subst h2; subst h3; rfl

/-- Witness for C7: a concrete rerun with one scanned task and a
one-workflow registry yields the same filenames both times. -/
theorem C7_rerun_same_filenames_witness :
    outputFilenames
        (serialize_all [exScanned ResourceType.task "pkg" "T"] [exWF] none) =
      outputFilenames
        (serialize_all [exScanned ResourceType.task "pkg" "T"] [exWF] none) :=
  C7_rerun_same_filenames
    [exScanned ResourceType.task "pkg" "T"] [exScanned ResourceType.task "pkg" "T"]
    [exWF] [exWF] none none rfl rfl rfl

/-! ### Claim C8 — tasks-only serialization -/

/-- C8: `serialize_tasks_only` writes exactly one record pair per scanned
task object — the scan bypasses the process-wide registry and is filtered
to tasks — every written pair carries a task identifier (no launch plan is
ever synthesized), and on a scan that discovered a workflow `W` and a
task `T` it writes exactly one record pair, for `T` only. -/
theorem C8_tasks_only (scanned : List ScannedObject) :
    (serialize_tasks_only scanned).length =
      (scanned.filter (fun o => o.resourceType = ResourceType.task)).length ∧
    (∀ pr ∈ serialize_tasks_only scanned,
        pr.identifierContent.resourceType = ResourceType.task) ∧
    serialize_tasks_only [exScanned ResourceType.workflow "pkg" "W",
        exScanned ResourceType.task "pkg" "T"] =
      [mkRecordPair 0 0 (assignId (exScanned ResourceType.task "pkg" "T"))] := by
  refine ⟨?_, ?_, by decide⟩
  · unfold serialize_tasks_only
    rw [writeLoopAll_map]
    simp
  · intro pr hpr
    unfold serialize_tasks_only at hpr
    rw [writeLoopAll_map] at hpr
    obtain ⟨⟨i, e⟩, hmem, rfl⟩ := List.mem_map.mp hpr
    have he : e ∈ (scanned.filter
        (fun o => o.resourceType = ResourceType.task)).map assignId := by
      have h2 := List.mem_map_of_mem Prod.snd hmem
      rwa [List.enum_map_snd] at h2
    obtain ⟨o, ho, rfl⟩ := List.mem_map.mp he
    have ht := (List.mem_filter.mp ho).2
    simp at ht
    simpa [mkRecordPair, assignId] using ht

/-! ### Claim C9 — fast-mode archive -/

/-- C9: after the `FAST`-mode `serialize_all` run, `fast_workflows`
produces exactly one gzip-compressed archive, named
`<digest>.tar.gz` for the digest computed over the source directory, whose
entries are the source directory's files rooted at the archive root
(paths kept relative, not nested under the directory name) with the same
filter predicate applied as for the digest. -/
theorem C9_fast_archive (scanned : List ScannedObject) (registry : List Entity)
    (sourceDir : List SourceFile) :
    (fast_workflows scanned registry sourceDir).archives.length = 1 ∧
    (∀ a ∈ (fast_workflows scanned registry sourceDir).archives,
      a.fname = compute_digest sourceDir ++ ".tar.gz" ∧
      a.compression = Compression.gzip ∧
      a.entries = sourceDir.filter filter_tar_file_fn) ∧
    (fast_workflows scanned registry sourceDir).records =
      serialize_all scanned registry
        (some (ModeVal.mode SerializationMode.FAST)) := by
  refine ⟨rfl, ?_, rfl⟩
  intro a ha
  have ha2 : a = { fname := compute_digest sourceDir ++ ".tar.gz"
                   compression := Compression.gzip
                   entries := sourceDir.filter filter_tar_file_fn } := by
    simpa [fast_workflows] using ha
  subst ha2
  exact ⟨rfl, rfl, rfl⟩

/-! ### Claim C10 — skipped entities keep their index -/

/-- C10: a skipped (already-registered) entity still consumes its
enumeration position: the pad width comes from the full batch length
(including skipped entities) and written indices are enumeration
positions in the full batch, so filenames can have index gaps — on
`gapBatch` (middle entity registered) the written indices are 0 and 2,
and on `wideBatch` (eleven entities, nine registered) the width is 2,
computed from all eleven. -/
theorem C10_skip_consumes_index (batch : List RegisterableForm) :
    writeLoop batch =
      (batch.enum.filter (fun p => !p.2.hasRegistered)).map
        (fun p => mkRecordPair (_determine_text_chars batch.length) p.1 p.2) ∧
    (writeLoop gapBatch).map (fun pr => pr.recordFname) =
      ["0_m.a.pb", "2_m.c.pb"] ∧
    _determine_text_chars wideBatch.length = 2 ∧
    (writeLoop wideBatch).map (fun pr => pr.recordFname) =
      ["00_m.a.pb", "10_m.k.pb"] :=
  ⟨writeLoopGo_filter _ _, by decide, by decide, by decide⟩

end FlytekitSerialize
